import Mathlib

/-!
Verification of the UpTask backend's identity and access-control core.

The definitions below are a shallow embedding of
`src/controllers/AuthController.ts` and of the route wiring in
`src/routes/projectRoutes.ts`.  The persisted store (MongoDB collections
for `User` and `Token`) is modelled as explicit lists; each controller
method becomes a pure function from the store (plus the request inputs and
the freshly generated random token value) to the new store, the list of
outbound e-mails, and a typed outcome.

`Promise.allSettled([a, b])` in the source awaits both writes and proceeds
regardless of individual failures; we mirror that by giving every such
operation one Boolean per parallel write saying whether that write
persisted.  Writes that the source `await`s directly (so that a failure
aborts the whole handler inside its `catch`) are modelled as succeeding.
-/

/-- The `User` model: identity record with email, display name, hashed
password and confirmation flag (mirrors `models/User`). -/
structure Account where
  id : Nat
  name : String
  email : String
  password : String
  confirmed : Bool
deriving Repr, DecidableEq

/-- The `Token` model: a verification code bound to one account
(mirrors `models/Token`; the TTL index is not enforced server-side). -/
structure VToken where
  token : String
  user : Nat
deriving Repr, DecidableEq

/-- The persisted store: the two collections, plus the counter from which
fresh account identifiers are drawn (standing in for ObjectId generation). -/
structure DB where
  users : List Account
  tokens : List VToken
  nextId : Nat
deriving Repr, DecidableEq

/-- Typed outcomes, following the error taxonomy of the controllers:
each constructor corresponds to one distinct error response of
`AuthController`. -/
inductive AuthError
  | DuplicateEmail
  | UnknownEmail
  | InvalidToken
  | AccountNotConfirmed
  | AlreadyConfirmed
  | InvalidPassword
  | InternalFailure
deriving Repr, DecidableEq

/-- Outbound mail, one constructor per `AuthEmail` method. -/
inductive EmailMsg
  | confirmation (email name token : String)
  | passwordReset (email name token : String)
deriving Repr, DecidableEq

/-- Modelled from the spec: the `User` schema and the auth-route validators
are not among the sources; per spec §3 the account email is case-normalized
("unique email (case-normalized)").  We model this by comparing emails
through this normalization at every lookup. -/
def normEmail (e : String) : String := ⟨e.data.map Char.toLower⟩

instance {ε α : Type} [DecidableEq ε] [DecidableEq α] :
    DecidableEq (Except ε α) := fun x y =>
  match x, y with
  | .ok a, .ok b =>
    match decEq a b with
    | isTrue h => isTrue (by rw [h])
    | isFalse h => isFalse (by intro he; cases he; exact h rfl)
  | .error a, .error b =>
    match decEq a b with
    | isTrue h => isTrue (by rw [h])
    | isFalse h => isFalse (by intro he; cases he; exact h rfl)
  | .ok _, .error _ => isFalse (by intro he; cases he)
  | .error _, .ok _ => isFalse (by intro he; cases he)

/-- Modelled from the spec: `utils/auth.ts` is not among the sources; per
spec §4.1 `hash` is a deterministic one-way transform.  We embed it as an
injective tagging of the plaintext. -/
def hashPassword (p : String) : String := "#" ++ p

/-- Modelled from the spec: `verify(plaintext, hashedForm) -> bool`
compares a plaintext against a stored hash. -/
def checkPassword (p stored : String) : Bool := hashPassword p = stored

/-- Modelled from the spec: `utils/jwt.ts` is not among the sources; per
spec §4.2 `issueSession(accountId)` embeds the account identifier as the
only claim. -/
def generateJWT (id : Nat) : String := "jwt:" ++ toString id

/-- `User.findOne({email})`. -/
def findUserByEmail (db : DB) (email : String) : Option Account :=
  db.users.find? (fun u => normEmail u.email = normEmail email)

/-- `User.findById(id)`. -/
def findUserById (db : DB) (id : Nat) : Option Account :=
  db.users.find? (fun u => u.id = id)

/-- `Token.findOne({token})`. -/
def findTokenByValue (db : DB) (t : String) : Option VToken :=
  db.tokens.find? (fun tk => tk.token = t)

/-- `Token.findOne({user: uid})`. -/
def findTokenByUser (db : DB) (uid : Nat) : Option VToken :=
  db.tokens.find? (fun tk => tk.user = uid)

/-- `document.save()` on an existing user document: the stored record with
that id is replaced. -/
def saveUser (db : DB) (u : Account) : DB :=
  { db with users := db.users.map (fun v => if v.id = u.id then u else v) }

/-- First save of a freshly constructed user document. -/
def insertUser (db : DB) (u : Account) : DB :=
  { db with users := db.users ++ [u] }

/-- First save of a freshly constructed token document. -/
def insertToken (db : DB) (t : VToken) : DB :=
  { db with tokens := db.tokens ++ [t] }

/-- `tokenDocument.deleteOne()`: that record is removed from the store. -/
def deleteToken (db : DB) (t : VToken) : DB :=
  { db with tokens := db.tokens.erase t }

/-- The repeated source block "look up the previous token for this user,
delete it if present, then save a fresh token" (`AuthController.ts`
lines 81-90, 135-152, 170-179). -/
def replaceTokenFor (db : DB) (uid : Nat) (genTok : String) : DB :=
  let db1 :=
    match findTokenByUser db uid with
    | some prev => deleteToken db prev
    | none => db
  insertToken db1 { token := genTok, user := uid }

/-- `AuthController.createAccount` (register).  `genTok` is the value
produced by `generateToken()`; `okUser`/`okTok` say which of the two
`Promise.allSettled` writes persisted.  The confirmation e-mail is sent
before the writes, exactly as in the source. -/
def createAccount (db : DB) (name email password genTok : String)
    (okUser okTok : Bool) : DB × List EmailMsg × Except AuthError Unit :=
  match findUserByEmail db email with
  | some _ => (db, [], .error .DuplicateEmail)
  | none =>
    let uid := db.nextId
    let user : Account :=
      { id := uid, name := name, email := email,
        password := hashPassword password, confirmed := false }
    let tok : VToken := { token := genTok, user := uid }
    let db1 := { db with nextId := db.nextId + 1 }
    let db2 := if okUser then insertUser db1 user else db1
    let db3 := if okTok then insertToken db2 tok else db2
    (db3, [.confirmation user.email user.name genTok], .ok ())

/-- `AuthController.confirmAccount`.  `okUser`/`okDel` say which of the two
`Promise.allSettled` writes (`user.save()`, `tokenExist.deleteOne()`)
persisted; the handler reports success either way. -/
def confirmAccount (db : DB) (token : String) (okUser okDel : Bool) :
    DB × Except AuthError Unit :=
  match findTokenByValue db token with
  | none => (db, .error .InvalidToken)
  | some tk =>
    match findUserById db tk.user with
    | none => (db, .error .InternalFailure)
    | some u =>
      let db1 := if okUser then saveUser db { u with confirmed := true } else db
      let db2 := if okDel then deleteToken db1 tk else db1
      (db2, .ok ())

/-- `AuthController.login`.  On an unconfirmed account the prior token is
deleted, a fresh one is saved (direct `await`), a confirmation e-mail is
sent and the handler fails; only the confirmed path can return a JWT. -/
def login (db : DB) (email password genTok : String) :
    DB × List EmailMsg × Except AuthError String :=
  match findUserByEmail db email with
  | none => (db, [], .error .UnknownEmail)
  | some u =>
    if u.confirmed then
      if checkPassword password u.password then
        (db, [], .ok (generateJWT u.id))
      else
        (db, [], .error .InvalidPassword)
    else
      (replaceTokenFor db u.id genTok,
       [.confirmation u.email u.name genTok],
       .error .AccountNotConfirmed)

/-- `AuthController.requestConfirmationCode`. -/
def requestConfirmationCode (db : DB) (email genTok : String) :
    DB × List EmailMsg × Except AuthError Unit :=
  match findUserByEmail db email with
  | none => (db, [], .error .UnknownEmail)
  | some u =>
    if u.confirmed then
      (db, [], .error .AlreadyConfirmed)
    else
      (replaceTokenFor db u.id genTok,
       [.confirmation u.email u.name genTok],
       .ok ())

/-- `AuthController.forgotPassword` (requestPasswordReset): note there is
no check of the `confirmed` flag on this path. -/
def forgotPassword (db : DB) (email genTok : String) :
    DB × List EmailMsg × Except AuthError Unit :=
  match findUserByEmail db email with
  | none => (db, [], .error .UnknownEmail)
  | some u =>
    (replaceTokenFor db u.id genTok,
     [.passwordReset u.email u.name genTok],
     .ok ())

/-- `AuthController.validateToken` (validateResetToken): a pure lookup,
no write of any kind. -/
def validateToken (db : DB) (token : String) : DB × Except AuthError Unit :=
  match findTokenByValue db token with
  | none => (db, .error .InvalidToken)
  | some _ => (db, .ok ())

/-- `AuthController.updatePasswordWithToken` (resetPassword).  `okUser` and
`okDel` say which of the two `Promise.allSettled` writes persisted. -/
def updatePasswordWithToken (db : DB) (token password : String)
    (okUser okDel : Bool) : DB × Except AuthError Unit :=
  match findTokenByValue db token with
  | none => (db, .error .InvalidToken)
  | some tk =>
    match findUserById db tk.user with
    | none => (db, .error .InternalFailure)
    | some u =>
      let db1 :=
        if okUser then saveUser db { u with password := hashPassword password }
        else db
      let db2 := if okDel then deleteToken db1 tk else db1
      (db2, .ok ())

/-- `AuthController.updateProfile`: `reqUserId` is the authenticated
account attached by the `authenticate` middleware. -/
def updateProfile (db : DB) (reqUserId : Nat) (name email : String) :
    DB × Except AuthError Unit :=
  let dup :=
    match findUserByEmail db email with
    | some other => other.id != reqUserId
    | none => false
  if dup then (db, .error .DuplicateEmail)
  else
    match findUserById db reqUserId with
    | some u =>
      (saveUser db { u with name := name, email := email }, .ok ())
    | none => (db, .error .InternalFailure)

/-! ## The project-route authorization gate (`projectRoutes.ts`) -/

/-- The project-scoped operations routed through `projectRoutes.ts`. -/
inductive Op
  | getProject | listProjects | listTasks | getTask | listNotes
  | getTeam | findTeamMember
  | updateProject | deleteProject
  | createTask | updateTask | deleteTask | updateTaskStatus
  | addTeamMember | removeTeamMember
  | createNote | deleteNote
deriving Repr, DecidableEq

/-- Which routes carry the `hasAuthorization` middleware, read off
`projectRoutes.ts`: PUT `/:projectId` (line 47), DELETE `/:projectId`
(line 54), PUT task (line 81), DELETE task (line 92) and POST task status
(line 99).  The task-create, team and note routes do not carry it. -/
def routeHasAuthorization : Op → Bool
  | .updateProject => true
  | .deleteProject => true
  | .updateTask => true
  | .deleteTask => true
  | .updateTaskStatus => true
  | _ => false

/-- The read-only routes. -/
def isReadOp : Op → Bool
  | .getProject => true
  | .listProjects => true
  | .listTasks => true
  | .getTask => true
  | .listNotes => true
  | .getTeam => true
  | .findTeamMember => true
  | _ => false

/-- The project record consumed by the resolver, with the shape the spec
gives for the external lookup: `{ownerId, memberIds}`. -/
structure Project where
  ownerId : Nat
  memberIds : List Nat
deriving Repr, DecidableEq

/-- Modelled from the spec: `middleware/task.ts` (the `hasAuthorization`
middleware body) is not among the sources; per spec §3/§4.5 "the source
grants mutation rights only to the owner", so the gate passes exactly the
requesting account that equals the project's owning account. -/
def hasAuthorization (p : Project) (uid : Nat) : Bool :=
  uid = p.ownerId

/-- Modelled from the spec: the controllers behind the read routes are not
among the sources; per spec §4.5 an account that is the owner or is in the
member set may read, anyone else is `Unauthorized` "regardless of HTTP
verb". -/
def canAccessProject (p : Project) (uid : Nat) : Bool :=
  uid = p.ownerId || p.memberIds.contains uid

/-- Authorization decision of the route pipeline. -/
inductive Decision
  | allowed
  | unauthorized
deriving Repr, DecidableEq

/-- The per-route authorization outcome assembled from the source's
middleware wiring: a route that carries `hasAuthorization` rejects every
account but the owner; every other route admits any account that can
access the project (spec §4.5's membership gate, the routes themselves add
no further ownership check). -/
def routeDecision (p : Project) (uid : Nat) (op : Op) : Decision :=
  if routeHasAuthorization op then
    if hasAuthorization p uid then .allowed else .unauthorized
  else
    if canAccessProject p uid then .allowed else .unauthorized

/-! ## Store invariants -/

/-- At most one outstanding token per account: no two stored token records
are bound to the same account. -/
abbrev tokensOk (db : DB) : Prop :=
  db.tokens.Pairwise (fun a b => a.user ≠ b.user)

/-- Distinct stored token records carry distinct code values (the spec's
collision-resistance assumption on `generateToken`). -/
abbrev tokenValuesOk (db : DB) : Prop :=
  db.tokens.Pairwise (fun a b => a.token ≠ b.token)

/-- Identifier freshness: every stored account id and token binding lies
below the fresh-id counter. -/
abbrev idsOk (db : DB) : Prop :=
  (∀ u ∈ db.users, u.id < db.nextId) ∧ (∀ t ∈ db.tokens, t.user < db.nextId)

/-- Account emails are unique up to case normalization (the `unique` email
index of the `User` model). -/
abbrev emailsOk (db : DB) : Prop :=
  db.users.Pairwise (fun a b => normEmail a.email ≠ normEmail b.email)

/-! ## Helper lemmas -/

theorem tokensOk_nodup {db : DB} (h : tokensOk db) : db.tokens.Nodup :=
  h.imp (fun hne => by intro he; exact hne (he ▸ rfl))

theorem tokenValuesOk_nodup {db : DB} (h : tokenValuesOk db) : db.tokens.Nodup :=
  h.imp (fun hne => by intro he; exact hne (he ▸ rfl))

theorem mem_erase_user_ne {db : DB} {uid : Nat} {prev : VToken}
    (h : tokensOk db) (hf : findTokenByUser db uid = some prev) :
    ∀ x ∈ db.tokens.erase prev, x.user ≠ uid := by
  intro x hx hxu
  have hprevmem : prev ∈ db.tokens := List.mem_of_find?_eq_some hf
  have hprevu : prev.user = uid := by
    have := List.find?_some hf
    exact of_decide_eq_true this
  have hx' := (tokensOk_nodup h).mem_erase_iff.mp hx
  have hxne : x ≠ prev := hx'.1
  have hxmem : x ∈ db.tokens := hx'.2
  have := List.Pairwise.forall (R := fun a b : VToken => a.user ≠ b.user)
    (fun _ _ hne => fun he => hne he.symm) h hxmem hprevmem hxne
  exact this (hxu.trans hprevu.symm)

theorem find_user_none {db : DB} {uid : Nat}
    (hf : findTokenByUser db uid = none) :
    ∀ x ∈ db.tokens, x.user ≠ uid := by
  intro x hx hxu
  have := List.find?_eq_none.mp hf x hx
  exact this (decide_eq_true hxu)

/-- The token list produced by `replaceTokenFor` is a sublist of the old
one, none of whose records is bound to `uid`, with the fresh record
appended. -/
theorem replaceTokenFor_tokens {db : DB} (uid : Nat) (g : String)
    (h : tokensOk db) :
    ∃ base, (replaceTokenFor db uid g).tokens = base ++ [⟨g, uid⟩] ∧
      (∀ x ∈ base, x.user ≠ uid) ∧ List.Sublist base db.tokens := by
  unfold replaceTokenFor
  cases hf : findTokenByUser db uid with
  | some prev =>
    refine ⟨db.tokens.erase prev, ?_, mem_erase_user_ne h hf,
      List.erase_sublist prev db.tokens⟩
    simp [insertToken, deleteToken]
  | none =>
    refine ⟨db.tokens, ?_, find_user_none hf, List.Sublist.refl _⟩
    simp [insertToken]

theorem replaceTokenFor_tokensOk {db : DB} (uid : Nat) (g : String)
    (h : tokensOk db) : tokensOk (replaceTokenFor db uid g) := by
  obtain ⟨base, heq, hbase, hsub⟩ := replaceTokenFor_tokens uid g h
  show (replaceTokenFor db uid g).tokens.Pairwise _
  rw [heq]
  refine List.pairwise_append.mpr ⟨h.sublist hsub, List.pairwise_singleton _ _, ?_⟩
  intro a ha b hb
  have : b = (⟨g, uid⟩ : VToken) := List.mem_singleton.mp hb
  subst this
  exact hbase a ha

theorem replaceTokenFor_filter {db : DB} (uid : Nat) (g : String)
    (h : tokensOk db) :
    (replaceTokenFor db uid g).tokens.filter (fun x => x.user = uid) =
      [⟨g, uid⟩] := by
  obtain ⟨base, heq, hbase, _⟩ := replaceTokenFor_tokens uid g h
  rw [heq, List.filter_append]
  have h1 : base.filter (fun x => x.user = uid) = [] :=
    List.filter_eq_nil_iff.mpr
      (fun a ha => by simpa using hbase a ha)
  rw [h1]
  simp

/-- Without any invariant: the new token list is some sublist of the old
one with the fresh record appended, and the other fields are untouched. -/
theorem replaceTokenFor_struct (db : DB) (uid : Nat) (g : String) :
    (∃ base, (replaceTokenFor db uid g).tokens = base ++ [⟨g, uid⟩] ∧
      List.Sublist base db.tokens) ∧
    (replaceTokenFor db uid g).users = db.users ∧
    (replaceTokenFor db uid g).nextId = db.nextId := by
  unfold replaceTokenFor
  cases hf : findTokenByUser db uid with
  | some prev =>
    exact ⟨⟨db.tokens.erase prev, by simp [insertToken, deleteToken],
      List.erase_sublist prev db.tokens⟩, rfl, rfl⟩
  | none =>
    exact ⟨⟨db.tokens, by simp [insertToken], List.Sublist.refl _⟩, rfl, rfl⟩

theorem replaceTokenFor_idsOk {db : DB} {uid : Nat} (g : String)
    (h : idsOk db) (huid : uid < db.nextId) :
    idsOk (replaceTokenFor db uid g) := by
  obtain ⟨⟨base, heq, hsub⟩, husers, hnext⟩ := replaceTokenFor_struct db uid g
  constructor
  · intro u hu
    rw [hnext]
    exact h.1 u (husers ▸ hu)
  · intro t ht
    rw [heq] at ht
    rw [hnext]
    rcases List.mem_append.mp ht with hl | hr
    · exact h.2 t (hsub.mem hl)
    · have : t = (⟨g, uid⟩ : VToken) := List.mem_singleton.mp hr
      subst this
      exact huid

/-- Consuming a found token removes every record carrying its code value,
provided code values are unique. -/
theorem erase_find_value_none {db : DB} {t : String} {tk : VToken}
    (hv : tokenValuesOk db) (hf : findTokenByValue db t = some tk) :
    (db.tokens.erase tk).find? (fun x => x.token = t) = none := by
  apply List.find?_eq_none.mpr
  intro x hx hxp
  have hf' : db.tokens.find? (fun x => x.token = t) = some tk := hf
  have hxt : x.token = t := of_decide_eq_true hxp
  have h2 := List.find?_some hf'
  have htkt : tk.token = t := of_decide_eq_true h2
  have htkmem : tk ∈ db.tokens := List.mem_of_find?_eq_some hf'
  have hx' := (tokenValuesOk_nodup hv).mem_erase_iff.mp hx
  have := List.Pairwise.forall (R := fun a b : VToken => a.token ≠ b.token)
    (fun _ _ hne he => hne he.symm) hv hx'.2 htkmem hx'.1
  exact this (hxt.trans htkt.symm)

/-- Replacing the record with a given id in a user list: the lookup for
that id then returns the replacement, provided it previously succeeded. -/
theorem find?_map_replace (l : List Account) (u' : Account) (uid : Nat)
    (hid : u'.id = uid) (h : (l.find? (fun v => v.id = uid)).isSome) :
    (l.map (fun v => if v.id = u'.id then u' else v)).find?
      (fun v => v.id = uid) = some u' := by
  induction l with
  | nil => simp [List.find?] at h
  | cons a l ih =>
    by_cases ha : a.id = uid
    · simp only [List.map_cons, ha.trans hid.symm, if_pos rfl]
      simp [List.find?, hid]
    · have ha' : ¬ a.id = u'.id := fun he => ha (he.trans hid)
      simp only [List.map_cons, if_neg ha']
      rw [List.find?_cons_of_neg _ (by simpa using ha)] at h ⊢
      exact ih h

theorem saveUser_findUserById {db : DB} {uid : Nat} (u' : Account)
    (hid : u'.id = uid) (h : (findUserById db uid).isSome) :
    findUserById (saveUser db u') uid = some u' :=
  find?_map_replace db.users u' uid hid h

theorem saveUser_idsOk {db : DB} {u' : Account} (h : idsOk db)
    (hlt : u'.id < db.nextId) : idsOk (saveUser db u') := by
  constructor
  · intro x hx
    simp only [saveUser, List.mem_map] at hx
    obtain ⟨v, hv, hvx⟩ := hx
    by_cases hc : v.id = u'.id
    · rw [if_pos hc] at hvx
      exact hvx ▸ hlt
    · rw [if_neg hc] at hvx
      exact hvx ▸ h.1 v hv
  · exact h.2

theorem saveUser_tokensOk {db : DB} {u' : Account} (h : tokensOk db) :
    tokensOk (saveUser db u') := h

theorem deleteToken_tokensOk {db : DB} {tk : VToken} (h : tokensOk db) :
    tokensOk (deleteToken db tk) :=
  h.sublist (List.erase_sublist tk db.tokens)

theorem deleteToken_idsOk {db : DB} {tk : VToken} (h : idsOk db) :
    idsOk (deleteToken db tk) :=
  ⟨h.1, fun t ht => h.2 t ((List.erase_sublist tk db.tokens).mem ht)⟩

/-! ## Claims -/

/-- C1, counterexample: account 2 is a member (and not the owner) of the
project, yet the task-status-update route — which carries the
`hasAuthorization` middleware in `projectRoutes.ts` — rejects it as
unauthorized, contradicting the claim that members may update task
status. -/
theorem C1_counterexample :
    (2 ∈ (Project.mk 1 [2]).memberIds ∧ 2 ≠ (Project.mk 1 [2]).ownerId) ∧
    routeDecision (Project.mk 1 [2]) 2 Op.updateTaskStatus =
      Decision.unauthorized := by decide

/-- C1 (amended): for an authenticated account that is a member but not the
owner of a project, the route pipeline permits every read operation, rejects
as unauthorized every route that carries the `hasAuthorization` gate —
project update/delete, task update/delete AND task-status update — and does
not reject the member on the task-create and team-membership routes, which
carry no ownership gate. -/
theorem C1_member_authorization (p : Project) (uid : Nat) (op : Op)
    (hm : uid ∈ p.memberIds) (ho : uid ≠ p.ownerId) :
    (isReadOp op = true → routeDecision p uid op = .allowed) ∧
    (routeHasAuthorization op = true → routeDecision p uid op = .unauthorized) ∧
    ((op = .createTask ∨ op = .addTeamMember ∨ op = .removeTeamMember) →
      routeDecision p uid op = .allowed) := by
  have hacc : canAccessProject p uid = true := by
    simp [canAccessProject]
    exact Or.inr hm
  have hgate : hasAuthorization p uid = false := by
    simp [hasAuthorization, ho]
  refine ⟨?_, ?_, ?_⟩
  · intro hr
    have hno : routeHasAuthorization op = false := by
      cases op <;> simp_all [routeHasAuthorization, isReadOp]
    simp [routeDecision, hno, hacc]
  · intro hh
    simp [routeDecision, hh, hgate]
  · rintro (rfl | rfl | rfl) <;> simp [routeDecision, routeHasAuthorization, hacc]

/-- Witness for C1's amended theorem at the concrete two-account project. -/
theorem C1_member_authorization_witness :
    routeDecision (Project.mk 1 [2]) 2 Op.getTask = Decision.allowed ∧
    routeDecision (Project.mk 1 [2]) 2 Op.deleteProject = Decision.unauthorized ∧
    routeDecision (Project.mk 1 [2]) 2 Op.addTeamMember = Decision.allowed :=
  ⟨(C1_member_authorization (Project.mk 1 [2]) 2 Op.getTask
      (by decide) (by decide)).1 rfl,
   (C1_member_authorization (Project.mk 1 [2]) 2 Op.deleteProject
      (by decide) (by decide)).2.1 rfl,
   (C1_member_authorization (Project.mk 1 [2]) 2 Op.addTeamMember
      (by decide) (by decide)).2.2 (Or.inr (Or.inl rfl))⟩

/-- C7: `validateToken` fails with `InvalidToken` exactly when no matching
token record exists, and in every case leaves the whole store unchanged:
nothing is created, mutated or deleted, and the token is not consumed. -/
theorem C7_validateToken_pure (db : DB) (t : String) :
    (validateToken db t).1 = db ∧
    ((validateToken db t).2 = .error .InvalidToken ↔
      findTokenByValue db t = none) ∧
    ((validateToken db t).2 = .ok () ↔ (findTokenByValue db t).isSome = true) := by
  cases h : findTokenByValue db t <;> simp [validateToken, h]

/-- Concrete fixture: one unconfirmed account. -/
def annU : Account := ⟨0, "Ann", "ann@x.com", "#pw", false⟩

/-- Concrete fixture: the store holding `annU` and one outstanding token. -/
def dbAnn : DB := ⟨[annU], [⟨"abc123", 0⟩], 1⟩

/-- C2: `login` on an existing unconfirmed account never returns a session
credential — it fails with `AccountNotConfirmed` — sends exactly one
confirmation e-mail, and afterwards the account's outstanding tokens are
exactly the single freshly issued one (any prior token was deleted
first). -/
theorem C2_login_unconfirmed (db : DB) (email pw g : String) (u : Account)
    (hok : tokensOk db) (hu : findUserByEmail db email = some u)
    (hc : u.confirmed = false) :
    (login db email pw g).2.2 = .error .AccountNotConfirmed ∧
    (login db email pw g).2.1 = [.confirmation u.email u.name g] ∧
    (login db email pw g).1.tokens.filter (fun x => x.user = u.id) =
      [⟨g, u.id⟩] := by
  simp only [login, hu, hc, Bool.false_eq_true, if_false]
  exact ⟨trivial, trivial, replaceTokenFor_filter u.id g hok⟩

/-- Witness for C2 at the concrete unconfirmed store. -/
theorem C2_login_unconfirmed_witness :
    (login dbAnn "ann@x.com" "pw" "fresh1").2.2 =
      .error .AccountNotConfirmed ∧
    (login dbAnn "ann@x.com" "pw" "fresh1").2.1 =
      [.confirmation "ann@x.com" "Ann" "fresh1"] ∧
    (login dbAnn "ann@x.com" "pw" "fresh1").1.tokens.filter
      (fun x => x.user = 0) = [⟨"fresh1", 0⟩] :=
  C2_login_unconfirmed dbAnn "ann@x.com" "pw" "fresh1" annU
    (by decide) (by decide) (by decide)

/-- C3, counterexample: the two success-path writes of `confirmAccount` go
through `Promise.allSettled`, so in the run where the account write
persists and the token-delete write does not, the handler still reports
success, the account is Confirmed, and the token is still live — the two
writes are not atomic. -/
theorem C3_counterexample :
    (confirmAccount dbAnn "abc123" true false).2 = .ok () ∧
    (findUserById (confirmAccount dbAnn "abc123" true false).1 0).map
      Account.confirmed = some true ∧
    findTokenByValue (confirmAccount dbAnn "abc123" true false).1 "abc123" =
      some ⟨"abc123", 0⟩ := by decide

/-- C3 (amended): `confirmAccount` fails with `InvalidToken` (state
unchanged) when no matching token exists; on success it attempts the
account write and the token delete independently and best-effort, so when
both writes persist the account is Confirmed and the token deleted, but a
partial failure is not rolled back. -/
theorem C3_confirm_behavior (db : DB) (t : String) (tk : VToken) (u : Account)
    (o1 o2 : Bool) :
    (findTokenByValue db t = none →
      confirmAccount db t o1 o2 = (db, .error .InvalidToken)) ∧
    (findTokenByValue db t = some tk → findUserById db tk.user = some u →
      confirmAccount db t true true =
        (deleteToken (saveUser db { u with confirmed := true }) tk,
          .ok ())) := by
  constructor
  · intro h
    simp [confirmAccount, h]
  · intro h1 h2
    simp [confirmAccount, h1, h2]

/-- Witness for C3's amended theorem at the concrete store. -/
theorem C3_confirm_behavior_witness :
    confirmAccount dbAnn "zzz" true true = (dbAnn, .error .InvalidToken) ∧
    confirmAccount dbAnn "abc123" true true =
      (deleteToken (saveUser dbAnn { annU with confirmed := true })
        ⟨"abc123", 0⟩, .ok ()) :=
  ⟨(C3_confirm_behavior dbAnn "zzz" ⟨"abc123", 0⟩ annU true true).1 (by decide),
   (C3_confirm_behavior dbAnn "abc123" ⟨"abc123", 0⟩ annU true true).2
     (by decide) (by decide)⟩

/-- Inversion: a successful `confirmAccount` run with both writes
persisting found a token for the given value and erased it. -/
theorem confirm_ok_tokens {db db' : DB} {t : String}
    (h : confirmAccount db t true true = (db', Except.ok ())) :
    ∃ tk, findTokenByValue db t = some tk ∧
      db'.tokens = db.tokens.erase tk := by
  cases hf : findTokenByValue db t with
  | none => simp [confirmAccount, hf] at h
  | some tk =>
    cases hu : findUserById db tk.user with
    | none => simp [confirmAccount, hf, hu] at h
    | some u =>
      simp only [confirmAccount, hf, hu, if_true] at h
      refine ⟨tk, rfl, ?_⟩
      have h1 : deleteToken (saveUser db { u with confirmed := true }) tk = db' :=
        congrArg Prod.fst h
      rw [← h1]
      rfl

/-- Inversion: a successful `updatePasswordWithToken` run with both writes
persisting found a token for the given value and erased it. -/
theorem updatePassword_ok_tokens {db db' : DB} {t pw : String}
    (h : updatePasswordWithToken db t pw true true = (db', Except.ok ())) :
    ∃ tk, findTokenByValue db t = some tk ∧
      db'.tokens = db.tokens.erase tk := by
  cases hf : findTokenByValue db t with
  | none => simp [updatePasswordWithToken, hf] at h
  | some tk =>
    cases hu : findUserById db tk.user with
    | none => simp [updatePasswordWithToken, hf, hu] at h
    | some u =>
      simp only [updatePasswordWithToken, hf, hu, if_true] at h
      refine ⟨tk, rfl, ?_⟩
      have h1 : deleteToken
          (saveUser db { u with password := hashPassword pw }) tk = db' :=
        congrArg Prod.fst h
      rw [← h1]
      rfl

/-- C4: each verification token is consumed exactly once — after a
successful `confirmAccount` (resp. `updatePasswordWithToken`) whose writes
persisted, a second invocation with the same token value fails with
`InvalidToken`, whatever happens to the second run's writes. -/
theorem C4_token_consumed_once (db db1 db2 : DB) (t pw pw2 : String)
    (o1 o2 o3 o4 : Bool) (hv : tokenValuesOk db) :
    (confirmAccount db t true true = (db1, .ok ()) →
      (confirmAccount db1 t o1 o2).2 = .error .InvalidToken) ∧
    (updatePasswordWithToken db t pw true true = (db2, .ok ()) →
      (updatePasswordWithToken db2 t pw2 o3 o4).2 =
        .error .InvalidToken) := by
  constructor
  · intro h
    obtain ⟨tk, hf, htk⟩ := confirm_ok_tokens h
    have hnone : findTokenByValue db1 t = none := by
      show db1.tokens.find? _ = none
      rw [htk]
      exact erase_find_value_none hv hf
    simp [confirmAccount, hnone]
  · intro h
    obtain ⟨tk, hf, htk⟩ := updatePassword_ok_tokens h
    have hnone : findTokenByValue db2 t = none := by
      show db2.tokens.find? _ = none
      rw [htk]
      exact erase_find_value_none hv hf
    simp [updatePasswordWithToken, hnone]

/-- Witness for C4 at the concrete store: after consuming `abc123` via
confirm (resp. password reset), a replay fails with `InvalidToken`. -/
theorem C4_token_consumed_once_witness :
    (confirmAccount ⟨[⟨0, "Ann", "ann@x.com", "#pw", true⟩], [], 1⟩
      "abc123" true true).2 = .error .InvalidToken ∧
    (updatePasswordWithToken ⟨[⟨0, "Ann", "ann@x.com", "#new", false⟩], [], 1⟩
      "abc123" "new2" true true).2 = .error .InvalidToken :=
  ⟨(C4_token_consumed_once dbAnn
      ⟨[⟨0, "Ann", "ann@x.com", "#pw", true⟩], [], 1⟩
      ⟨[⟨0, "Ann", "ann@x.com", "#new", false⟩], [], 1⟩
      "abc123" "new" "new2" true true true true (by decide)).1 (by decide),
   (C4_token_consumed_once dbAnn
      ⟨[⟨0, "Ann", "ann@x.com", "#pw", true⟩], [], 1⟩
      ⟨[⟨0, "Ann", "ann@x.com", "#new", false⟩], [], 1⟩
      "abc123" "new" "new2" true true true true (by decide)).2 (by decide)⟩

/-- A token bound to the fresh id can be appended to a store whose token
bindings all lie below the fresh id. -/
theorem append_fresh_tokensOk {db : DB} (g : String)
    (h1 : tokensOk db) (h2 : idsOk db) :
    (db.tokens ++ [(⟨g, db.nextId⟩ : VToken)]).Pairwise
      (fun a b : VToken => a.user ≠ b.user) :=
  List.pairwise_append.mpr ⟨h1, List.pairwise_singleton _ _,
    fun a ha b hb => by
      have hlt := h2.2 a ha
      have hb' : b = (⟨g, db.nextId⟩ : VToken) := List.mem_singleton.mp hb
      rw [hb']
      exact Nat.ne_of_lt hlt⟩

theorem createAccount_result_fields {db : DB} {e : String}
    (hf : findUserByEmail db e = none) (n p g : String) (o1 o2 : Bool) :
    (createAccount db n e p g o1 o2).1.users =
      (if o1 then db.users ++ [⟨db.nextId, n, e, hashPassword p, false⟩]
        else db.users) ∧
    (createAccount db n e p g o1 o2).1.tokens =
      (if o2 then db.tokens ++ [⟨g, db.nextId⟩] else db.tokens) ∧
    (createAccount db n e p g o1 o2).1.nextId = db.nextId + 1 := by
  cases o1 <;> cases o2 <;> simp [createAccount, hf, insertUser, insertToken]

theorem createAccount_preserves {db : DB} (h1 : tokensOk db) (h2 : idsOk db)
    (n e p g : String) (o1 o2 : Bool) :
    tokensOk (createAccount db n e p g o1 o2).1 ∧
      idsOk (createAccount db n e p g o1 o2).1 := by
  cases hf : findUserByEmail db e with
  | some w =>
    simp only [createAccount, hf]
    exact ⟨h1, h2⟩
  | none =>
    obtain ⟨hus, hts, hn⟩ := createAccount_result_fields hf n p g o1 o2
    refine ⟨?_, ?_, ?_⟩
    · show List.Pairwise _ _
      rw [hts]
      cases o2
      · rw [if_neg Bool.false_ne_true]
        exact h1
      · rw [if_pos rfl]
        exact append_fresh_tokensOk g h1 h2
    · intro u hu
      rw [hn]
      rw [hus] at hu
      cases o1
      · rw [if_neg Bool.false_ne_true] at hu
        exact Nat.lt_succ_of_lt (h2.1 u hu)
      · rw [if_pos rfl] at hu
        rcases List.mem_append.mp hu with hu | hu
        · exact Nat.lt_succ_of_lt (h2.1 u hu)
        · rw [List.mem_singleton.mp hu]
          exact Nat.lt_succ_self _
    · intro t ht
      rw [hn]
      rw [hts] at ht
      cases o2
      · rw [if_neg Bool.false_ne_true] at ht
        exact Nat.lt_succ_of_lt (h2.2 t ht)
      · rw [if_pos rfl] at ht
        rcases List.mem_append.mp ht with ht | ht
        · exact Nat.lt_succ_of_lt (h2.2 t ht)
        · rw [List.mem_singleton.mp ht]
          exact Nat.lt_succ_self _

theorem confirmAccount_preserves {db : DB} (h1 : tokensOk db) (h2 : idsOk db)
    (t : String) (o1 o2 : Bool) :
    tokensOk (confirmAccount db t o1 o2).1 ∧
      idsOk (confirmAccount db t o1 o2).1 := by
  cases hf : findTokenByValue db t with
  | none =>
    simp only [confirmAccount, hf]
    exact ⟨h1, h2⟩
  | some tk =>
    cases hu : findUserById db tk.user with
    | none =>
      simp only [confirmAccount, hf, hu]
      exact ⟨h1, h2⟩
    | some u =>
      have hu' : db.users.find? (fun v => v.id = tk.user) = some u := hu
      have hid : u.id < db.nextId := h2.1 u (List.mem_of_find?_eq_some hu')
      have hdb1 : tokensOk (if o1 then saveUser db { u with confirmed := true }
            else db) ∧
          idsOk (if o1 then saveUser db { u with confirmed := true } else db) := by
        cases o1
        · rw [if_neg Bool.false_ne_true]
          exact ⟨h1, h2⟩
        · rw [if_pos rfl]
          exact ⟨saveUser_tokensOk h1, saveUser_idsOk h2 hid⟩
      have hdb2 : tokensOk (if o2 then
            deleteToken (if o1 then saveUser db { u with confirmed := true }
              else db) tk
            else (if o1 then saveUser db { u with confirmed := true } else db)) ∧
          idsOk (if o2 then
            deleteToken (if o1 then saveUser db { u with confirmed := true }
              else db) tk
            else (if o1 then saveUser db { u with confirmed := true } else db)) := by
        cases o2
        · rw [if_neg Bool.false_ne_true]
          exact hdb1
        · rw [if_pos rfl]
          exact ⟨deleteToken_tokensOk hdb1.1, deleteToken_idsOk hdb1.2⟩
      simp only [confirmAccount, hf, hu]
      exact hdb2

theorem updatePassword_preserves {db : DB} (h1 : tokensOk db) (h2 : idsOk db)
    (t pw : String) (o1 o2 : Bool) :
    tokensOk (updatePasswordWithToken db t pw o1 o2).1 ∧
      idsOk (updatePasswordWithToken db t pw o1 o2).1 := by
  cases hf : findTokenByValue db t with
  | none =>
    simp only [updatePasswordWithToken, hf]
    exact ⟨h1, h2⟩
  | some tk =>
    cases hu : findUserById db tk.user with
    | none =>
      simp only [updatePasswordWithToken, hf, hu]
      exact ⟨h1, h2⟩
    | some u =>
      have hu' : db.users.find? (fun v => v.id = tk.user) = some u := hu
      have hid : u.id < db.nextId := h2.1 u (List.mem_of_find?_eq_some hu')
      have hdb1 : tokensOk (if o1 then
            saveUser db { u with password := hashPassword pw } else db) ∧
          idsOk (if o1 then
            saveUser db { u with password := hashPassword pw } else db) := by
        cases o1
        · rw [if_neg Bool.false_ne_true]
          exact ⟨h1, h2⟩
        · rw [if_pos rfl]
          exact ⟨saveUser_tokensOk h1, saveUser_idsOk h2 hid⟩
      have hdb2 : tokensOk (if o2 then
            deleteToken (if o1 then
              saveUser db { u with password := hashPassword pw } else db) tk
            else (if o1 then
              saveUser db { u with password := hashPassword pw } else db)) ∧
          idsOk (if o2 then
            deleteToken (if o1 then
              saveUser db { u with password := hashPassword pw } else db) tk
            else (if o1 then
              saveUser db { u with password := hashPassword pw } else db)) := by
        cases o2
        · rw [if_neg Bool.false_ne_true]
          exact hdb1
        · rw [if_pos rfl]
          exact ⟨deleteToken_tokensOk hdb1.1, deleteToken_idsOk hdb1.2⟩
      simp only [updatePasswordWithToken, hf, hu]
      exact hdb2

theorem login_preserves {db : DB} (h1 : tokensOk db) (h2 : idsOk db)
    (e pw g : String) :
    tokensOk (login db e pw g).1 ∧ idsOk (login db e pw g).1 := by
  cases hf : findUserByEmail db e with
  | none =>
    simp only [login, hf]
    exact ⟨h1, h2⟩
  | some u =>
    have hf' : db.users.find?
        (fun v => normEmail v.email = normEmail e) = some u := hf
    have hid : u.id < db.nextId := h2.1 u (List.mem_of_find?_eq_some hf')
    cases hc : u.confirmed with
    | true =>
      have hstate : (login db e pw g).1 = db := by
        cases hcp : checkPassword pw u.password <;> simp [login, hf, hc, hcp]
      rw [hstate]
      exact ⟨h1, h2⟩
    | false =>
      have hstate : (login db e pw g).1 = replaceTokenFor db u.id g := by
        simp [login, hf, hc]
      rw [hstate]
      exact ⟨replaceTokenFor_tokensOk u.id g h1,
        replaceTokenFor_idsOk g h2 hid⟩

theorem requestConfirmationCode_preserves {db : DB}
    (h1 : tokensOk db) (h2 : idsOk db) (e g : String) :
    tokensOk (requestConfirmationCode db e g).1 ∧
      idsOk (requestConfirmationCode db e g).1 := by
  cases hf : findUserByEmail db e with
  | none =>
    simp only [requestConfirmationCode, hf]
    exact ⟨h1, h2⟩
  | some u =>
    have hf' : db.users.find?
        (fun v => normEmail v.email = normEmail e) = some u := hf
    have hid : u.id < db.nextId := h2.1 u (List.mem_of_find?_eq_some hf')
    cases hc : u.confirmed with
    | true =>
      have hstate : (requestConfirmationCode db e g).1 = db := by
        simp [requestConfirmationCode, hf, hc]
      rw [hstate]
      exact ⟨h1, h2⟩
    | false =>
      have hstate : (requestConfirmationCode db e g).1 =
          replaceTokenFor db u.id g := by
        simp [requestConfirmationCode, hf, hc]
      rw [hstate]
      exact ⟨replaceTokenFor_tokensOk u.id g h1,
        replaceTokenFor_idsOk g h2 hid⟩

theorem forgotPassword_preserves {db : DB}
    (h1 : tokensOk db) (h2 : idsOk db) (e g : String) :
    tokensOk (forgotPassword db e g).1 ∧
      idsOk (forgotPassword db e g).1 := by
  cases hf : findUserByEmail db e with
  | none =>
    simp only [forgotPassword, hf]
    exact ⟨h1, h2⟩
  | some u =>
    have hf' : db.users.find?
        (fun v => normEmail v.email = normEmail e) = some u := hf
    have hid : u.id < db.nextId := h2.1 u (List.mem_of_find?_eq_some hf')
    have hstate : (forgotPassword db e g).1 = replaceTokenFor db u.id g := by
      simp [forgotPassword, hf]
    rw [hstate]
    exact ⟨replaceTokenFor_tokensOk u.id g h1,
      replaceTokenFor_idsOk g h2 hid⟩

/-- C5: the at-most-one-token-per-account invariant (together with
id-freshness of the counter) is preserved by every lifecycle operation —
register, confirm, login, requestNewConfirmationCode, requestPasswordReset
and resetPassword — for all inputs and all outcomes of the best-effort
writes; hence it holds in every state they can reach from a state
satisfying it. -/
theorem C5_single_token_invariant (db : DB)
    (h1 : tokensOk db) (h2 : idsOk db) :
    (∀ n e p g o1 o2, tokensOk (createAccount db n e p g o1 o2).1 ∧
      idsOk (createAccount db n e p g o1 o2).1) ∧
    (∀ t o1 o2, tokensOk (confirmAccount db t o1 o2).1 ∧
      idsOk (confirmAccount db t o1 o2).1) ∧
    (∀ e pw g, tokensOk (login db e pw g).1 ∧ idsOk (login db e pw g).1) ∧
    (∀ e g, tokensOk (requestConfirmationCode db e g).1 ∧
      idsOk (requestConfirmationCode db e g).1) ∧
    (∀ e g, tokensOk (forgotPassword db e g).1 ∧
      idsOk (forgotPassword db e g).1) ∧
    (∀ t pw o1 o2, tokensOk (updatePasswordWithToken db t pw o1 o2).1 ∧
      idsOk (updatePasswordWithToken db t pw o1 o2).1) :=
  ⟨fun n e p g o1 o2 => createAccount_preserves h1 h2 n e p g o1 o2,
   fun t o1 o2 => confirmAccount_preserves h1 h2 t o1 o2,
   fun e pw g => login_preserves h1 h2 e pw g,
   fun e g => requestConfirmationCode_preserves h1 h2 e g,
   fun e g => forgotPassword_preserves h1 h2 e g,
   fun t pw o1 o2 => updatePassword_preserves h1 h2 t pw o1 o2⟩

/-- Witness for C5 at the concrete store: a password-reset request and a
registration both keep the invariant. -/
theorem C5_single_token_invariant_witness :
    (tokensOk (forgotPassword dbAnn "ann@x.com" "g2").1 ∧
      idsOk (forgotPassword dbAnn "ann@x.com" "g2").1) ∧
    (tokensOk (createAccount dbAnn "Bob" "bob@x.com" "pw2" "g3" true true).1 ∧
      idsOk (createAccount dbAnn "Bob" "bob@x.com" "pw2" "g3" true true).1) :=
  ⟨(C5_single_token_invariant dbAnn (by decide) (by decide)).2.2.2.2.1
      "ann@x.com" "g2",
   (C5_single_token_invariant dbAnn (by decide) (by decide)).1
      "Bob" "bob@x.com" "pw2" "g3" true true⟩

/-- C6: `requestConfirmationCode` fails with `UnknownEmail` when no account
has that email and with `AlreadyConfirmed` when the account is confirmed
(store unchanged, no e-mail, in both cases); otherwise it deletes any prior
outstanding token, creates exactly one fresh token for the account and
sends exactly one confirmation e-mail. -/
theorem C6_requestConfirmationCode (db : DB) (email g : String) (u : Account) :
    (findUserByEmail db email = none →
      requestConfirmationCode db email g = (db, [], .error .UnknownEmail)) ∧
    (findUserByEmail db email = some u → u.confirmed = true →
      requestConfirmationCode db email g = (db, [], .error .AlreadyConfirmed)) ∧
    (findUserByEmail db email = some u → u.confirmed = false → tokensOk db →
      (requestConfirmationCode db email g).2.2 = .ok () ∧
      (requestConfirmationCode db email g).2.1 =
        [.confirmation u.email u.name g] ∧
      (requestConfirmationCode db email g).1.tokens.filter
        (fun x => x.user = u.id) = [⟨g, u.id⟩]) := by
  refine ⟨?_, ?_, ?_⟩
  · intro h
    simp [requestConfirmationCode, h]
  · intro h hc
    simp [requestConfirmationCode, h, hc]
  · intro h hc hok
    simp only [requestConfirmationCode, h, hc, Bool.false_eq_true, if_false]
    exact ⟨trivial, trivial, replaceTokenFor_filter u.id g hok⟩

/-- Witness for C6 at the concrete unconfirmed store. -/
theorem C6_requestConfirmationCode_witness :
    (requestConfirmationCode dbAnn "ann@x.com" "g9").2.2 = .ok () ∧
    (requestConfirmationCode dbAnn "ann@x.com" "g9").2.1 =
      [.confirmation "ann@x.com" "Ann" "g9"] ∧
    (requestConfirmationCode dbAnn "ann@x.com" "g9").1.tokens.filter
      (fun x => x.user = 0) = [⟨"g9", 0⟩] :=
  (C6_requestConfirmationCode dbAnn "ann@x.com" "g9" annU).2.2
    (by decide) (by decide) (by decide)

/-- Inversion: a successful registration whose writes persisted found no
account under the email and appended the new unconfirmed account. -/
theorem createAccount_ok_inv {db db1 : DB} {n e p g : String}
    {ems : List EmailMsg}
    (h : createAccount db n e p g true true = (db1, ems, Except.ok ())) :
    findUserByEmail db e = none ∧
    db1.users = db.users ++ [⟨db.nextId, n, e, hashPassword p, false⟩] := by
  cases hf : findUserByEmail db e with
  | some w => simp [createAccount, hf] at h
  | none =>
    refine ⟨rfl, ?_⟩
    have h1 : (createAccount db n e p g true true).1 = db1 :=
      congrArg Prod.fst h
    obtain ⟨hus, -, -⟩ := createAccount_result_fields hf n p g true true
    rw [h1] at hus
    rw [hus, if_pos rfl]

/-- C8: registering an email already held by an existing account — equal up
to letter case — fails with `DuplicateEmail` and creates nothing: the store
is unchanged and no e-mail is sent. -/
theorem C8_register_duplicate (db db1 : DB) (n1 e1 p1 g1 n2 e2 p2 g2 : String)
    (ems : List EmailMsg) (o1 o2 : Bool)
    (h1 : createAccount db n1 e1 p1 g1 true true = (db1, ems, .ok ()))
    (he : normEmail e1 = normEmail e2) :
    createAccount db1 n2 e2 p2 g2 o1 o2 = (db1, [], .error .DuplicateEmail) := by
  obtain ⟨-, husers⟩ := createAccount_ok_inv h1
  have hmem : (⟨db.nextId, n1, e1, hashPassword p1, false⟩ : Account) ∈
      db1.users := by
    rw [husers]
    simp
  have hsome : (findUserByEmail db1 e2).isSome :=
    List.find?_isSome.mpr ⟨_, hmem, decide_eq_true he⟩
  cases hw : findUserByEmail db1 e2 with
  | none =>
    rw [hw] at hsome
    simp at hsome
  | some w => simp [createAccount, hw]

/-- Witness for C8: a case-variant re-registration is refused. -/
theorem C8_register_duplicate_witness :
    createAccount ⟨[⟨0, "Ann", "ann@x.com", "#pw", false⟩], [⟨"t1", 0⟩], 1⟩
      "Bob" "ANN@X.COM" "pw2" "g5" true true =
    (⟨[⟨0, "Ann", "ann@x.com", "#pw", false⟩], [⟨"t1", 0⟩], 1⟩, [],
      .error .DuplicateEmail) :=
  C8_register_duplicate ⟨[], [], 0⟩
    ⟨[⟨0, "Ann", "ann@x.com", "#pw", false⟩], [⟨"t1", 0⟩], 1⟩
    "Ann" "ann@x.com" "pw" "t1" "Bob" "ANN@X.COM" "pw2" "g5"
    [.confirmation "ann@x.com" "Ann" "t1"] true true (by decide) (by decide)

/-- C9: `updateProfile` fails with `DuplicateEmail` exactly when a
different account owns the target email (compared case-insensitively), and
an account re-submitting its own current email succeeds. -/
theorem C9_updateProfile (db : DB) (uid : Nat) (nm em : String) (u : Account)
    (hmail : emailsOk db) (hu : findUserById db uid = some u) :
    ((updateProfile db uid nm em).2 = .error .DuplicateEmail ↔
      ∃ v ∈ db.users, v.id ≠ uid ∧ normEmail v.email = normEmail em) ∧
    (updateProfile db uid nm u.email).2 = .ok () := by
  have hu' : db.users.find? (fun v => v.id = uid) = some u := hu
  have humem : u ∈ db.users := List.mem_of_find?_eq_some hu'
  have huid : u.id = uid := by
    have h := List.find?_some hu'
    exact of_decide_eq_true h
  constructor
  · constructor
    · intro herr
      cases hw : findUserByEmail db em with
      | none =>
        exfalso
        simp [updateProfile, hw, hu] at herr
      | some w =>
        have hw' : db.users.find?
            (fun x => normEmail x.email = normEmail em) = some w := hw
        by_cases hwid : w.id = uid
        · exfalso
          have hok : (updateProfile db uid nm em).2 = .ok () := by
            simp [updateProfile, hw, hwid, hu]
          rw [hok] at herr
          exact absurd herr (by simp)
        · have h2 := List.find?_some hw'
          exact ⟨w, List.mem_of_find?_eq_some hw', hwid, of_decide_eq_true h2⟩
    · rintro ⟨v, hvmem, hvid, hvem⟩
      have hsome : (findUserByEmail db em).isSome :=
        List.find?_isSome.mpr ⟨v, hvmem, decide_eq_true hvem⟩
      cases hw : findUserByEmail db em with
      | none =>
        rw [hw] at hsome
        simp at hsome
      | some w =>
        have hw' : db.users.find?
            (fun x => normEmail x.email = normEmail em) = some w := hw
        have hwmem := List.mem_of_find?_eq_some hw'
        have h2 := List.find?_some hw'
        have hwem : normEmail w.email = normEmail em := of_decide_eq_true h2
        have hwid : w.id ≠ uid := by
          intro hwid
          have hvw : v ≠ w := by
            intro hvw
            rw [hvw] at hvid
            exact hvid hwid
          have hpair := List.Pairwise.forall
            (R := fun a b : Account => normEmail a.email ≠ normEmail b.email)
            (fun _ _ hne he => hne he.symm) hmail hvmem hwmem hvw
          exact hpair (hvem.trans hwem.symm)
        simp [updateProfile, hw, hwid]
  · have hsome : (findUserByEmail db u.email).isSome :=
      List.find?_isSome.mpr ⟨u, humem, decide_eq_true rfl⟩
    cases hw : findUserByEmail db u.email with
    | none =>
      rw [hw] at hsome
      simp at hsome
    | some w =>
      have hw' : db.users.find?
          (fun x => normEmail x.email = normEmail u.email) = some w := hw
      have hwmem := List.mem_of_find?_eq_some hw'
      have h2 := List.find?_some hw'
      have hwem : normEmail w.email = normEmail u.email := of_decide_eq_true h2
      have hwu : w = u := by
        by_contra hne
        have hpair := List.Pairwise.forall
          (R := fun a b : Account => normEmail a.email ≠ normEmail b.email)
          (fun _ _ hne2 he => hne2 he.symm) hmail hwmem humem hne
        exact hpair hwem
      simp [updateProfile, hw, hwu, huid, hu]

/-- Concrete fixture: a second, confirmed account. -/
def bobU : Account := ⟨1, "Bob", "bob@x.com", "#b", true⟩

/-- Witness for C9 at a two-account store: taking Bob's email (in different
case) is refused, re-submitting one's own email succeeds. -/
theorem C9_updateProfile_witness :
    (updateProfile ⟨[annU, bobU], [], 2⟩ 0 "Ann" "BOB@X.com").2 =
      .error .DuplicateEmail ∧
    (updateProfile ⟨[annU, bobU], [], 2⟩ 0 "Ann" "ann@x.com").2 = .ok () :=
  ⟨(C9_updateProfile ⟨[annU, bobU], [], 2⟩ 0 "Ann" "BOB@X.com" annU
      (by decide) (by decide)).1.mpr
      ⟨bobU, by decide, by decide, by decide⟩,
   (C9_updateProfile ⟨[annU, bobU], [], 2⟩ 0 "Ann" "BOB@X.com" annU
      (by decide) (by decide)).2⟩

/-- C10: `forgotPassword` issues a reset token for every existing account —
there is no confirmation-state check on this path — and a successful
`updatePasswordWithToken` whose writes persisted changes only that
account's password hash and deletes the token, leaving name, email and the
confirmed flag unchanged. -/
theorem C10_password_reset (db : DB) (email g t pw : String) (u w : Account)
    (tk : VToken) :
    (findUserByEmail db email = some u → tokensOk db →
      (forgotPassword db email g).2.2 = .ok () ∧
      (forgotPassword db email g).2.1 = [.passwordReset u.email u.name g] ∧
      (forgotPassword db email g).1.tokens.filter (fun x => x.user = u.id) =
        [⟨g, u.id⟩]) ∧
    (findTokenByValue db t = some tk → findUserById db tk.user = some w →
      updatePasswordWithToken db t pw true true =
        (deleteToken (saveUser db { w with password := hashPassword pw }) tk,
          .ok ()) ∧
      findUserById
        (deleteToken (saveUser db { w with password := hashPassword pw }) tk)
        tk.user = some { w with password := hashPassword pw } ∧
      ({ w with password := hashPassword pw } : Account).name = w.name ∧
      ({ w with password := hashPassword pw } : Account).email = w.email ∧
      ({ w with password := hashPassword pw } : Account).confirmed =
        w.confirmed ∧
      (deleteToken (saveUser db { w with password := hashPassword pw })
        tk).tokens = db.tokens.erase tk) := by
  constructor
  · intro hf hok
    simp only [forgotPassword, hf]
    exact ⟨trivial, trivial, replaceTokenFor_filter u.id g hok⟩
  · intro hf hw
    have hw' : db.users.find? (fun v => v.id = tk.user) = some w := hw
    have h2 := List.find?_some hw'
    have hwid : ({ w with password := hashPassword pw } : Account).id =
        tk.user := of_decide_eq_true h2
    refine ⟨by simp [updatePasswordWithToken, hf, hw], ?_, rfl, rfl, rfl, rfl⟩
    have hsame : findUserById
        (deleteToken (saveUser db { w with password := hashPassword pw }) tk)
        tk.user =
        findUserById (saveUser db { w with password := hashPassword pw })
        tk.user := rfl
    rw [hsame]
    have hisSome : (findUserById db tk.user).isSome = true := by
      rw [hw]
      rfl
    exact saveUser_findUserById _ hwid hisSome

/-- Witness for C10 at the concrete unconfirmed store: the reset e-mail is
issued although `annU` is unconfirmed, and the reset consumes the token. -/
theorem C10_password_reset_witness :
    (forgotPassword dbAnn "ann@x.com" "g7").2.2 = .ok () ∧
    (forgotPassword dbAnn "ann@x.com" "g7").1.tokens.filter
      (fun x => x.user = 0) = [⟨"g7", 0⟩] ∧
    updatePasswordWithToken dbAnn "abc123" "npw" true true =
      (deleteToken (saveUser dbAnn { annU with password := hashPassword "npw" })
        ⟨"abc123", 0⟩, .ok ()) :=
  ⟨((C10_password_reset dbAnn "ann@x.com" "g7" "abc123" "npw" annU annU
      ⟨"abc123", 0⟩).1 (by decide) (by decide)).1,
   ((C10_password_reset dbAnn "ann@x.com" "g7" "abc123" "npw" annU annU
      ⟨"abc123", 0⟩).1 (by decide) (by decide)).2.2,
   ((C10_password_reset dbAnn "ann@x.com" "g7" "abc123" "npw" annU annU
      ⟨"abc123", 0⟩).2 (by decide) (by decide)).1⟩
